import Mathlib

/-!
Shallow embedding of the pmgraph graph state engine.

Sources:
* `src/src/types.ts` — data model (task/group node data, edges, filters, presets)
* `src/src/utils/presets.ts` — preset registry and `getPresetById`
* `src/src/store/usePMGraphStore.ts` — the Zustand store: mutations, history
* `src/unnamed/part_004` (GraphCanvas) — `displayEdges`: synthetic edge
  aggregation for collapsed groups
* `src/unnamed/part_009` (nodeHelpers) — `createDefaultNode`, `createGroupNode`

Modelling conventions:
* JS strings are `String`, numbers occurring in positions are `Int`
  (the claims under study never depend on fractional coordinates),
  `x ?? y` on nullable values is `Option.getD`, `undefined`/`null` are `none`.
* JS `Set<string>` is a duplicate-free `List String` in insertion order;
  JS `Map` is an association list in insertion order with in-place value
  replacement on `set` (`mapSet`/`mapGet` below).
* Purely visual output (the `style`/opacity decoration that `displayEdges`
  and `displayNodes` attach, and the constant `dragHandle` field) is omitted:
  no claim mentions it and it does not feed back into any state.
* `crypto.randomUUID()` is modelled by passing the generated id as an
  explicit argument.
-/

namespace PMGraph

/-- Canvas position (`{x, y}`). -/
structure Pos where
  x : Int
  y : Int
deriving DecidableEq

/-- A label pill (`LabelItem` in `types.ts`). -/
structure LabelItem where
  text : String
  color : String
deriving DecidableEq

/-- `EdgeType` in `types.ts`: `"blocks" | "relates" | "triggers"`. -/
inductive EdgeType where
  | blocks
  | relates
  | triggers
deriving DecidableEq

/-- Node `data` dictionary: union of `TaskNodeData` and `GroupNodeData`
fields (JS stores an open record; task nodes use the first seven fields,
group nodes use `title`, `color`, `collapsed`; no code path reads a field
the originating factory did not set). -/
structure NodeData where
  title : String
  description : String
  priority : String
  department : String
  labels : List LabelItem
  assignee : String
  dueDate : Option String
  color : String
  collapsed : Bool
deriving DecidableEq

/-- `Partial<TaskNodeData>`: each field optionally present. -/
structure PartialTaskData where
  title : Option String := none
  description : Option String := none
  priority : Option String := none
  department : Option String := none
  labels : Option (List LabelItem) := none
  assignee : Option String := none
  dueDate : Option (Option String) := none
deriving DecidableEq

/-- React Flow node as used by the store: id, type tag (`"task"`/`"group"`),
position, data record, optional parent group and hidden flag. -/
structure Node where
  id : String
  type : String
  position : Pos
  data : NodeData
  parentId : Option String := none
  hidden : Option Bool := none
deriving DecidableEq

/-- `PMEdgeData` in `types.ts`. -/
structure PMEdgeData where
  edgeType : EdgeType
  synthetic : Option Bool := none
  count : Option Nat := none
deriving DecidableEq

/-- React Flow edge as used by the store. -/
structure Edge where
  id : String
  type : String
  source : String
  target : String
  sourceHandle : Option String := none
  targetHandle : Option String := none
  data : Option PMEdgeData := none
deriving DecidableEq

/-- A connection request (React Flow `Connection`). -/
structure Connection where
  source : String
  target : String
  sourceHandle : Option String := none
  targetHandle : Option String := none
deriving DecidableEq

/-- `Filters` in `types.ts`. -/
structure Filters where
  departments : List String
  priority : String
  assignee : String
  search : String
deriving DecidableEq

/-- `PresetCategory` in `types.ts`. -/
structure PresetCategory where
  name : String
  color : String
deriving DecidableEq

/-- `Preset` in `types.ts`. -/
structure Preset where
  id : String
  label : String
  categories : List PresetCategory
deriving DecidableEq

/-- `HistorySlice` in `usePMGraphStore.ts`. -/
structure HistorySlice where
  nodes : List Node
  edges : List Edge
deriving DecidableEq

/-- The store state (`PMGraphState` data fields in `usePMGraphStore.ts`).
`past`/`future` are the `_past`/`_future` history stacks. -/
structure PMGraphState where
  nodes : List Node
  edges : List Edge
  selectedNodeId : Option String
  filters : Filters
  activePresetId : String
  collapsedGroups : List String
  taskPanelOpen : Bool
  past : List HistorySlice
  future : List HistorySlice
deriving DecidableEq

/-- `defaultFilters` in `usePMGraphStore.ts`. -/
def defaultFilters : Filters :=
  { departments := [], priority := "", assignee := "", search := "" }

/-- The store's initial state (`create<PMGraphState>` initializer). -/
def initialState : PMGraphState :=
  { nodes := [], edges := [], selectedNodeId := none, filters := defaultFilters
    activePresetId := "gamedev", collapsedGroups := [], taskPanelOpen := false
    past := [], future := [] }

/-! ### Preset registry (`src/src/utils/presets.ts`) -/

/-- First registered preset (`PRESETS[0]`). -/
def gamedevPreset : Preset :=
  { id := "gamedev", label := "Game Dev"
    categories := [⟨"Programming", "#3b82f6"⟩, ⟨"Art", "#ec4899"⟩,
      ⟨"Design", "#a855f7"⟩, ⟨"Audio", "#eab308"⟩, ⟨"QA", "#22c55e"⟩] }

/-- Second registered preset. -/
def startupPreset : Preset :=
  { id := "startup", label := "Startup / Product"
    categories := [⟨"Engineering", "#3b82f6"⟩, ⟨"Product", "#a855f7"⟩,
      ⟨"Design", "#ec4899"⟩, ⟨"Marketing", "#f97316"⟩, ⟨"Ops", "#22c55e"⟩] }

/-- Third registered preset. -/
def personalPreset : Preset :=
  { id := "personal", label := "Personal"
    categories := [⟨"Work", "#3b82f6"⟩, ⟨"Personal", "#a855f7"⟩,
      ⟨"Health", "#22c55e"⟩, ⟨"Learning", "#eab308"⟩] }

/-- `PRESETS` registry. -/
def PRESETS : List Preset := [gamedevPreset, startupPreset, personalPreset]

/-- `getPresetById`: `PRESETS.find((p) => p.id === id) ?? PRESETS[0]`. -/
def getPresetById (id : String) : Preset :=
  (PRESETS.find? (fun p => p.id == id)).getD gamedevPreset

/-! ### Entity factory (`src/unnamed/part_009`, nodeHelpers) -/

/-- `createDefaultNode(position, data = {})`: defaults shallow-merged with
the supplied partial data; fresh id passed explicitly. -/
def createDefaultNode (position : Pos) (data : PartialTaskData) (freshId : String) : Node :=
  { id := freshId, type := "task", position := position
    data := { title := data.title.getD "Untitled"
              description := data.description.getD ""
              priority := data.priority.getD "medium"
              department := data.department.getD ""
              labels := data.labels.getD []
              assignee := data.assignee.getD ""
              dueDate := data.dueDate.getD none
              color := "", collapsed := false } }

/-- `createGroupNode(position, title, color)`; fresh id passed explicitly.
Fields absent from `GroupNodeData` take the record defaults. -/
def createGroupNode (position : Pos) (title color : String) (freshId : String) : Node :=
  { id := freshId, type := "group", position := position
    data := { title := title, description := "", priority := "", department := ""
              labels := [], assignee := "", dueDate := none
              color := color, collapsed := false } }

/-- Shallow merge `{...n.data, ...data}` of a `Partial<TaskNodeData>` over an
existing data record (used by `updateNode`). -/
def mergeData (d : NodeData) (p : PartialTaskData) : NodeData :=
  { d with title := p.title.getD d.title
           description := p.description.getD d.description
           priority := p.priority.getD d.priority
           department := p.department.getD d.department
           labels := p.labels.getD d.labels
           assignee := p.assignee.getD d.assignee
           dueDate := p.dueDate.getD d.dueDate }

/-! ### History manager (`usePMGraphStore.ts`) -/

/-- `MAX_HISTORY = 50`. -/
def MAX_HISTORY : Nat := 50

/-- `pushHistory(past, current) = [...past.slice(-(MAX_HISTORY - 1)), current]`:
keep the newest 49 slices, then append the current one. -/
def pushHistory (past : List HistorySlice) (current : HistorySlice) : List HistorySlice :=
  past.drop (past.length - (MAX_HISTORY - 1)) ++ [current]

/-- The slice `{ nodes: s.nodes, edges: s.edges }` recorded by mutations. -/
def currentSlice (s : PMGraphState) : HistorySlice :=
  { nodes := s.nodes, edges := s.edges }

/-! ### Store mutations (`usePMGraphStore.ts`) -/

/-- `addNode(position, data)`: append a fresh default task node, snapshot
history, clear the future stack. (The JS function also returns the new id,
modelled here by the `freshId` argument.) -/
def addNode (s : PMGraphState) (position : Pos) (data : PartialTaskData)
    (freshId : String) : PMGraphState :=
  { s with past := pushHistory s.past (currentSlice s), future := []
           nodes := s.nodes ++ [createDefaultNode position data freshId] }

/-- `updateNode(id, data)`: shallow-merge `data` into the matching node's
data record. -/
def updateNode (s : PMGraphState) (id : String) (data : PartialTaskData) : PMGraphState :=
  { s with past := pushHistory s.past (currentSlice s), future := []
           nodes := s.nodes.map fun n =>
             if n.id == id then { n with data := mergeData n.data data } else n }

/-- `deleteNode(id)`: drop the node, drop every edge touching it, clear
selection/panel state tied to it. -/
def deleteNode (s : PMGraphState) (id : String) : PMGraphState :=
  { s with past := pushHistory s.past (currentSlice s), future := []
           nodes := s.nodes.filter fun n => !(n.id == id)
           edges := s.edges.filter fun e => !(e.source == id) && !(e.target == id)
           selectedNodeId := if s.selectedNodeId == some id then none else s.selectedNodeId
           taskPanelOpen := if s.selectedNodeId == some id then false else s.taskPanelOpen }

/-- `setNodePosition(id, position)` (no history snapshot). -/
def setNodePosition (s : PMGraphState) (id : String) (position : Pos) : PMGraphState :=
  { s with nodes := s.nodes.map fun n =>
      if n.id == id then { n with position := position } else n }

/-- `setSelectedNode(id)`. -/
def setSelectedNode (s : PMGraphState) (id : Option String) : PMGraphState :=
  { s with selectedNodeId := id }

/-- `addGroupNode(position, title, color)`. -/
def addGroupNode (s : PMGraphState) (position : Pos) (title color : String)
    (freshId : String) : PMGraphState :=
  { s with past := pushHistory s.past (currentSlice s), future := []
           nodes := s.nodes ++ [createGroupNode position title color freshId] }

/-- `toggleGroupCollapse(groupId)`: flip membership of `groupId` in the
collapsed-group set, flip the group node's `collapsed` data flag, and set
`hidden` on every direct child. -/
def toggleGroupCollapse (s : PMGraphState) (groupId : String) : PMGraphState :=
  let isCollapsed := s.collapsedGroups.contains groupId
  let collapsed := if isCollapsed then s.collapsedGroups.erase groupId
                   else s.collapsedGroups ++ [groupId]
  { s with past := pushHistory s.past (currentSlice s), future := []
           collapsedGroups := collapsed
           nodes := s.nodes.map fun n =>
             if n.id == groupId && n.type == "group" then
               { n with data := { n.data with collapsed := !isCollapsed } }
             else if n.parentId == some groupId then { n with hidden := some (!isCollapsed) }
             else n }

/-- `moveNodeToGroup(nodeId, groupId)`.  JS tests `if (groupId)`, which is
false for both `undefined` and `""`, so `some ""` takes the ungroup branch. -/
def moveNodeToGroup (s : PMGraphState) (nodeId : String) (groupId : Option String) :
    PMGraphState :=
  match s.nodes.find? (fun n => n.id == nodeId) with
  | none => s
  | some node =>
    if node.type == "group" then s
    else
      match if groupId == some "" then none else groupId with
      | some gid =>
        match s.nodes.find? (fun n => n.id == gid) with
        | none => s
        | some group =>
          let relX := node.position.x - group.position.x
          let relY := node.position.y - group.position.y
          { s with past := pushHistory s.past (currentSlice s), future := []
                   nodes := s.nodes.map fun n =>
                     if n.id == nodeId then
                       { n with parentId := some gid
                                position := { x := max 10 relX, y := max 40 relY } }
                     else n }
      | none =>
        let parent : Option Node := match node.parentId with
                      | some p => s.nodes.find? (fun n => n.id == p)
                      | none => none
        let absX := node.position.x + ((parent.map (fun p => p.position.x)).getD 0)
        let absY := node.position.y + ((parent.map (fun p => p.position.y)).getD 0)
        { s with past := pushHistory s.past (currentSlice s), future := []
                 nodes := s.nodes.map fun n =>
                   if n.id == nodeId then
                     { n with parentId := none, position := { x := absX, y := absY } }
                   else n }

/-- The duplicate test inside `addEdge`: some existing edge has the identical
`(source, target, sourceHandle, targetHandle)` tuple. -/
def isDuplicateEdge (edges : List Edge) (c : Connection) : Bool :=
  edges.any fun e =>
    e.source == c.source && e.target == c.target &&
    e.sourceHandle == c.sourceHandle && e.targetHandle == c.targetHandle

/-- The edge object `addEdge` constructs. -/
def mkNewEdge (c : Connection) (freshId : String) : Edge :=
  { id := freshId, type := "typed", source := c.source, target := c.target
    sourceHandle := c.sourceHandle, targetHandle := c.targetHandle
    data := some { edgeType := .blocks } }

/-- `addEdge(connection)`: self-loops and exact duplicates are ignored;
otherwise append a fresh `"blocks"` edge. -/
def addEdge (s : PMGraphState) (c : Connection) (freshId : String) : PMGraphState :=
  if c.source == c.target then s
  else if isDuplicateEdge s.edges c then s
  else { s with past := pushHistory s.past (currentSlice s), future := []
                edges := s.edges ++ [mkNewEdge c freshId] }

/-- `removeEdge(id)`. -/
def removeEdge (s : PMGraphState) (id : String) : PMGraphState :=
  { s with past := pushHistory s.past (currentSlice s), future := []
           edges := s.edges.filter fun e => !(e.id == id) }

/-- `EDGE_TYPE_CYCLE = ["blocks", "relates", "triggers"]`. -/
def EDGE_TYPE_CYCLE : List EdgeType := [.blocks, .relates, .triggers]

/-- The edge type stored on an edge: `(e.data as PMEdgeData)?.edgeType ?? "blocks"`. -/
def edgeTypeOf (e : Edge) : EdgeType :=
  (e.data.map (fun d => d.edgeType)).getD .blocks

/-- `cycleEdgeType(edgeId)`: advance the matching edge's type one step in the
fixed cycle. -/
def cycleEdgeType (s : PMGraphState) (edgeId : String) : PMGraphState :=
  { s with past := pushHistory s.past (currentSlice s), future := []
           edges := s.edges.map fun e =>
             if !(e.id == edgeId) then e
             else
               let current := edgeTypeOf e
               let idx := EDGE_TYPE_CYCLE.indexOf current
               let next := EDGE_TYPE_CYCLE.getD ((idx + 1) % EDGE_TYPE_CYCLE.length) .blocks
               match e.data with
               | some d => { e with data := some { d with edgeType := next } }
               | none => { e with data := some { edgeType := next } } }

/-- `setEdgeType(edgeId, edgeType)`. -/
def setEdgeType (s : PMGraphState) (edgeId : String) (t : EdgeType) : PMGraphState :=
  { s with past := pushHistory s.past (currentSlice s), future := []
           edges := s.edges.map fun e =>
             if e.id == edgeId then
               match e.data with
               | some d => { e with data := some { d with edgeType := t } }
               | none => { e with data := some { edgeType := t } }
             else e }

/-- `setFilters(partial)` restricted to full replacement of individual fields
is not needed by any claim; `clearFilters()` resets to the defaults. -/
def clearFilters (s : PMGraphState) : PMGraphState :=
  { s with filters := defaultFilters }

/-- `setPreset(presetId)`: record the id, clear the department filter, and
reset the department of every task node whose department is non-empty and
not among the (possibly fallback-resolved) preset's category names. -/
def setPreset (s : PMGraphState) (presetId : String) : PMGraphState :=
  let categoryNames := (getPresetById presetId).categories.map fun c => c.name
  { s with activePresetId := presetId
           filters := { s.filters with departments := [] }
           nodes := s.nodes.map fun n =>
             if !(n.type == "task") then n
             else if n.data.department == "" || categoryNames.contains n.data.department then n
             else { n with data := { n.data with department := "" } } }

/-- `setTaskPanelOpen(open)`. -/
def setTaskPanelOpen (s : PMGraphState) (open_ : Bool) : PMGraphState :=
  { s with taskPanelOpen := open_ }

/-- `undo()`: no-op on empty past; otherwise pop the newest past slice into
the current position, pushing the current state onto the future stack
(bounded to 50). -/
def undo (s : PMGraphState) : PMGraphState :=
  match s.past.getLast? with
  | none => s
  | some prev =>
    { s with past := s.past.dropLast
             future := currentSlice s :: s.future.take (MAX_HISTORY - 1)
             nodes := prev.nodes, edges := prev.edges }

/-- `redo()`: no-op on empty future; otherwise pop the first future slice,
pushing the current state onto the past stack. -/
def redo (s : PMGraphState) : PMGraphState :=
  match s.future with
  | [] => s
  | next :: rest =>
    { s with past := pushHistory s.past (currentSlice s)
             future := rest
             nodes := next.nodes, edges := next.edges }

/-! ### Filter engine (`getFilteredNodeIds` in `usePMGraphStore.ts`) -/

/-- `Set.add`: append if absent (JS `Set` keeps insertion order, ignores
duplicates). -/
def setAdd (l : List String) (x : String) : List String :=
  if l.contains x then l else l ++ [x]

/-- JS `haystack.includes(needle)` substring test. -/
def strIncludes (haystack needle : String) : Bool :=
  decide (needle.data <:+: haystack.data)

/-- The per-task-node filter predicate (`matchDept && matchPriority &&
matchAssignee && matchSearch` in `getFilteredNodeIds`). -/
def taskNodeMatches (filters : Filters) (d : NodeData) : Bool :=
  (filters.departments.isEmpty || filters.departments.contains d.department) &&
  (filters.priority == "" || d.priority == filters.priority) &&
  (filters.assignee == "" || strIncludes d.assignee.toLower filters.assignee.toLower) &&
  (filters.search == "" || strIncludes d.title.toLower filters.search.toLower ||
    strIncludes d.assignee.toLower filters.search.toLower)

/-- `getFilteredNodeIds(nodes, filters)`: fast path returns the full id set;
otherwise groups pass automatically and task nodes are tested against all
four criteria. The JS `Set<string>` result is modelled as a duplicate-free
list in insertion order. -/
def getFilteredNodeIds (nodes : List Node) (filters : Filters) : List String :=
  let noFilters := filters.departments.isEmpty && filters.priority == "" &&
    filters.assignee == "" && filters.search == ""
  if noFilters then
    nodes.foldl (fun acc n => setAdd acc n.id) []
  else
    nodes.foldl (fun acc n =>
      if !(n.type == "task") then setAdd acc n.id
      else if taskNodeMatches filters n.data then setAdd acc n.id
      else acc) []

/-! ### Group collapse engine (`displayEdges` in `src/unnamed/part_004`) -/

/-- `EDGE_STRENGTH = { blocks: 3, triggers: 2, relates: 1 }`. -/
def EDGE_STRENGTH : EdgeType → Nat
  | .blocks => 3
  | .triggers => 2
  | .relates => 1

/-- JS `Map.get`. -/
def mapGet {α : Type} (m : List (String × α)) (k : String) : Option α :=
  (m.find? (fun p => p.1 == k)).map (fun p => p.2)

/-- JS `Map.set`: replace in place if the key is present, else append
(insertion order preserved, as `Array.from(map.values())` relies on). -/
def mapSet {α : Type} (m : List (String × α)) (k : String) (v : α) : List (String × α) :=
  if m.any (fun p => p.1 == k) then
    m.map (fun p => if p.1 == k then (k, v) else p)
  else m ++ [(k, v)]

/-- Step 1 of the engine: the child→group map over nodes whose `parentId`
is truthy (JS `node.parentId &&` — the empty string is falsy) and in the
collapsed set. -/
def childToGroup (nodes : List Node) (collapsedGroups : List String) :
    List (String × String) :=
  nodes.foldl (fun m n =>
    match n.parentId with
    | some p => if !(p == "") && collapsedGroups.contains p then mapSet m n.id p else m
    | none => m) []

/-- One iteration of the `for (const e of edges)` loop in `displayEdges`:
the accumulator is `(realEdges, syntheticMap)`.  The style/opacity
decoration applied to pass-through edges is display-only and omitted. -/
def displayEdgesStep (ctg : List (String × String)) (hasSynthetics : Bool)
    (acc : List Edge × List (String × Edge)) (e : Edge) :
    List Edge × List (String × Edge) :=
  let remappedSource := mapGet ctg e.source
  let remappedTarget := mapGet ctg e.target
  if !hasSynthetics || (remappedSource.isNone && remappedTarget.isNone) then
    (acc.1 ++ [e], acc.2)
  else
    let synSource := remappedSource.getD e.source
    let synTarget := remappedTarget.getD e.target
    if synSource == synTarget then acc
    else
      let key := synSource ++ "-" ++ synTarget
      let edgeType := edgeTypeOf e
      match mapGet acc.2 key with
      | some existing =>
        -- `existing.data as PMEdgeData`: synthetic entries always carry data
        -- (see `syntheticMap_data_isSome` below); the `none` arm is dead code.
        match existing.data with
        | some existingData =>
          (acc.1, mapSet acc.2 key
            { existing with data := some ({ existingData with
                  count := some ((existingData.count.getD 1) + 1)
                  edgeType :=
                    if EDGE_STRENGTH edgeType > EDGE_STRENGTH existingData.edgeType
                    then edgeType else existingData.edgeType }) })
        | none => acc
      | none =>
        (acc.1, mapSet acc.2 key
          { id := "synthetic-" ++ key, type := "typed"
            source := synSource, target := synTarget
            sourceHandle := none, targetHandle := none
            data := some { edgeType := edgeType, synthetic := some true, count := some 1 } })

/-- The two halves of `displayEdges`: pass-through real edges and the
synthetic map (in insertion order). -/
def displayEdgesParts (nodes : List Node) (edges : List Edge)
    (collapsedGroups : List String) : List Edge × List (String × Edge) :=
  let ctg := childToGroup nodes collapsedGroups
  let hasSynthetics := !ctg.isEmpty
  edges.foldl (displayEdgesStep ctg hasSynthetics) ([], [])

/-- `displayEdges`: `[...realEdges, ...Array.from(syntheticMap.values())]`.
The `visibleIds` input of the JS function only feeds the omitted opacity
styling, so it is not a parameter here. -/
def displayEdges (nodes : List Node) (edges : List Edge)
    (collapsedGroups : List String) : List Edge :=
  let parts := displayEdgesParts nodes edges collapsedGroups
  parts.1 ++ parts.2.map (fun p => p.2)

/-! ### Mutation sequences (for the history round-trip property) -/

/-- One structural mutation call, with any id generated by
`crypto.randomUUID()` carried as an explicit argument. -/
inductive Mutation where
  | addNode (position : Pos) (data : PartialTaskData) (freshId : String)
  | updateNode (id : String) (data : PartialTaskData)
  | deleteNode (id : String)
  | addGroupNode (position : Pos) (title color : String) (freshId : String)
  | toggleGroupCollapse (groupId : String)
  | moveNodeToGroup (nodeId : String) (groupId : Option String)
  | addEdge (c : Connection) (freshId : String)
  | removeEdge (id : String)
  | cycleEdgeType (edgeId : String)
  | setEdgeType (edgeId : String) (t : EdgeType)
deriving DecidableEq

/-- Dispatch a mutation to the corresponding store operation. -/
def applyMutation (s : PMGraphState) : Mutation → PMGraphState
  | .addNode position data freshId => addNode s position data freshId
  | .updateNode id data => updateNode s id data
  | .deleteNode id => deleteNode s id
  | .addGroupNode position title color freshId => addGroupNode s position title color freshId
  | .toggleGroupCollapse groupId => toggleGroupCollapse s groupId
  | .moveNodeToGroup nodeId groupId => moveNodeToGroup s nodeId groupId
  | .addEdge c freshId => addEdge s c freshId
  | .removeEdge id => removeEdge s id
  | .cycleEdgeType edgeId => cycleEdgeType s edgeId
  | .setEdgeType edgeId t => setEdgeType s edgeId t

/-- Whether the mutation, applied at `s`, takes a branch that records a
history snapshot (all listed mutations do except the silent no-op branches
of `moveNodeToGroup` and `addEdge`). -/
def pushesHistory (s : PMGraphState) : Mutation → Bool
  | .moveNodeToGroup nodeId groupId =>
    (match s.nodes.find? (fun n => n.id == nodeId) with
     | none => false
     | some node =>
       if node.type == "group" then false
       else
         match if groupId == some "" then none else groupId with
         | some gid => (s.nodes.find? (fun n => n.id == gid)).isSome
         | none => true)
  | .addEdge c _ => !(c.source == c.target) && !(isDuplicateEdge s.edges c)
  | _ => true

/-- Apply a list of mutations left to right. -/
def applyAll (s : PMGraphState) : List Mutation → PMGraphState
  | [] => s
  | m :: ms => applyAll (applyMutation s m) ms

/-- Every mutation in the list records a history snapshot at the state where
it is applied. -/
def allPush (s : PMGraphState) : List Mutation → Bool
  | [] => true
  | m :: ms => pushesHistory s m && allPush (applyMutation s m) ms

/-- `n` successive calls to `undo()`. -/
def undoN : Nat → PMGraphState → PMGraphState
  | 0, s => s
  | n + 1, s => undo (undoN n s)

/-! ### Specification-side descriptions used to state the claims -/

/-- The per-node effect of preset reconciliation, as §4.6 of the spec words
it: a task node whose department is non-empty and not among the new preset's
category names is reset to uncategorized; every other node is untouched. -/
def reconcileNode (categoryNames : List String) (n : Node) : Node :=
  if n.type = "task" ∧ n.data.department ≠ "" ∧ n.data.department ∉ categoryNames then
    { n with data := { n.data with department := "" } }
  else n

/-- Remapped source endpoint of an edge under the child→group map
(unmapped endpoints pass through). -/
def remapSource (ctg : List (String × String)) (e : Edge) : String :=
  (mapGet ctg e.source).getD e.source

/-- Remapped target endpoint of an edge under the child→group map. -/
def remapTarget (ctg : List (String × String)) (e : Edge) : String :=
  (mapGet ctg e.target).getD e.target

/-- Whether an edge contributes to a synthetic edge: some collapsed child is
among its endpoints and the remapped endpoints are distinct. -/
def contributes (ctg : List (String × String)) (hasSynthetics : Bool) (e : Edge) : Bool :=
  hasSynthetics && ((mapGet ctg e.source).isSome || (mapGet ctg e.target).isSome) &&
    !(remapSource ctg e == remapTarget ctg e)

/-- The string the aggregation keys a contributing edge by. -/
def edgeKey (ctg : List (String × String)) (e : Edge) : String :=
  remapSource ctg e ++ "-" ++ remapTarget ctg e

/-- The contributing edges carrying a given aggregation key, in input order. -/
def contributorsTo (ctg : List (String × String)) (hasSynthetics : Bool)
    (edges : List Edge) (k : String) : List Edge :=
  edges.filter fun e => contributes ctg hasSynthetics e && edgeKey ctg e == k

/-- The contributing edges whose remapped endpoints form a given ordered
pair, per the claim's own wording (keying by the pair, not by the joined
key string). -/
def pairContributors (ctg : List (String × String)) (hasSynthetics : Bool)
    (edges : List Edge) (st : String × String) : List Edge :=
  edges.filter fun e => contributes ctg hasSynthetics e &&
    remapSource ctg e == st.1 && remapTarget ctg e == st.2

/-- The strongest contributing type, resolved in input order with
strictly-greater replacement (first contributor `e0`, later ones `rest`). -/
def strongestType (e0 : Edge) (rest : List Edge) : EdgeType :=
  rest.foldl (fun t e =>
    if EDGE_STRENGTH (edgeTypeOf e) > EDGE_STRENGTH t then edgeTypeOf e else t)
    (edgeTypeOf e0)

/-- The synthetic edge the aggregation produces for key `k` from first
contributor `e0` and later contributors `rest`. -/
def syntheticFor (ctg : List (String × String)) (k : String) (e0 : Edge)
    (rest : List Edge) : Edge :=
  { id := "synthetic-" ++ k, type := "typed"
    source := remapSource ctg e0, target := remapTarget ctg e0
    sourceHandle := none, targetHandle := none
    data := some { edgeType := strongestType e0 rest, synthetic := some true
                   count := some (rest.length + 1) } }

/-! ### General list helpers -/

theorem list_map_id {α : Type} (l : List α) (f : α → α) (h : ∀ a ∈ l, f a = a) :
    l.map f = l := by
  induction l with
  | nil => rfl
  | cons a t ih =>
    simp only [List.map_cons, h a (List.mem_cons_self a t),
      ih fun b hb => h b (List.mem_cons_of_mem a hb)]

theorem list_filter_id {α : Type} (l : List α) (p : α → Bool) (h : ∀ a ∈ l, p a = true) :
    l.filter p = l :=
  List.filter_eq_self.mpr h

/-! ### History stack basics -/

theorem getLast?_pushHistory (past : List HistorySlice) (c : HistorySlice) :
    (pushHistory past c).getLast? = some c :=
  List.getLast?_concat _

theorem dropLast_pushHistory (past : List HistorySlice) (c : HistorySlice) :
    (pushHistory past c).dropLast = past.drop (past.length - (MAX_HISTORY - 1)) :=
  List.dropLast_concat ..

/-! ### Claim C9 -/

/-- C9: `undo()` and `redo()` replace only the nodes and edges collections —
`selectedNodeId`, `filters`, `activePresetId`, `taskPanelOpen` and the
`collapsedGroups` set are identical before and after either call; in
particular, undoing a `toggleGroupCollapse` restores the node collection
(hidden/collapsed flags included) while leaving the `collapsedGroups` set of
the toggled state unchanged. -/
theorem undo_redo_replace_only_nodes_edges (s : PMGraphState) (g : String) :
    ((undo s).selectedNodeId = s.selectedNodeId ∧ (undo s).filters = s.filters ∧
     (undo s).activePresetId = s.activePresetId ∧ (undo s).taskPanelOpen = s.taskPanelOpen ∧
     (undo s).collapsedGroups = s.collapsedGroups) ∧
    ((redo s).selectedNodeId = s.selectedNodeId ∧ (redo s).filters = s.filters ∧
     (redo s).activePresetId = s.activePresetId ∧ (redo s).taskPanelOpen = s.taskPanelOpen ∧
     (redo s).collapsedGroups = s.collapsedGroups) ∧
    ((undo (toggleGroupCollapse s g)).nodes = s.nodes ∧
     (undo (toggleGroupCollapse s g)).edges = s.edges ∧
     (undo (toggleGroupCollapse s g)).collapsedGroups =
       (toggleGroupCollapse s g).collapsedGroups) := by
  refine ⟨?_, ?_, ?_⟩
  · cases h : s.past.getLast? <;> simp [undo, h]
  · cases h : s.future <;> simp [redo, h]
  · simp [undo, toggleGroupCollapse, getLast?_pushHistory, currentSlice]

/-! ### Claim C10 -/

/-- C10: for a preset id matching no registered preset, `setPreset` still
records that id as `activePresetId` while reconciling departments against
the first registered preset's (the fallback's) category names. -/
theorem setPreset_unknown_id_falls_back (s : PMGraphState) (pid : String)
    (h : PRESETS.find? (fun p => p.id == pid) = none) :
    (setPreset s pid).activePresetId = pid ∧
    (setPreset s pid).nodes = s.nodes.map
      (reconcileNode (gamedevPreset.categories.map fun c => c.name)) := by
  constructor
  · simp [setPreset]
  · simp only [setPreset, getPresetById, h, Option.getD_none]
    exact List.map_congr_left fun n _ => by
      simp only [reconcileNode]
      by_cases ht : n.type = "task"
      · by_cases hd : n.data.department = ""
        · simp [ht, hd]
        · by_cases hm : n.data.department ∈ gamedevPreset.categories.map fun c => c.name
          · have : (gamedevPreset.categories.map fun c => c.name).contains
                n.data.department = true := by simpa using hm
            simp [ht, hd, hm, this]
          · have : (gamedevPreset.categories.map fun c => c.name).contains
                n.data.department = false := by simpa using hm
            simp [ht, hd, hm, this]
      · simp [ht]

/-- Witness for C10 at the concrete unknown id `"nope"`. -/
theorem setPreset_unknown_id_falls_back_witness :
    PRESETS.find? (fun p => p.id == "nope") = none ∧
    ((setPreset initialState "nope").activePresetId = "nope" ∧
     (setPreset initialState "nope").nodes = initialState.nodes.map
       (reconcileNode (gamedevPreset.categories.map fun c => c.name))) :=
  ⟨by decide, setPreset_unknown_id_falls_back initialState "nope" (by decide)⟩

/-! ### Claim C8 -/

/-- C8: `setPreset` resets the department of exactly those task nodes whose
department is non-empty and not among the new preset's category names,
leaves every other node field, all edges, the remaining filter fields,
selection, collapse state and both history stacks unchanged, records the new
preset id, and clears the department filter selection. -/
theorem setPreset_reconciles_departments (s : PMGraphState) (pid : String) :
    (setPreset s pid).nodes = s.nodes.map
      (reconcileNode ((getPresetById pid).categories.map fun c => c.name)) ∧
    (setPreset s pid).edges = s.edges ∧
    (setPreset s pid).activePresetId = pid ∧
    (setPreset s pid).filters.departments = [] ∧
    (setPreset s pid).filters.priority = s.filters.priority ∧
    (setPreset s pid).filters.assignee = s.filters.assignee ∧
    (setPreset s pid).filters.search = s.filters.search ∧
    (setPreset s pid).selectedNodeId = s.selectedNodeId ∧
    (setPreset s pid).collapsedGroups = s.collapsedGroups ∧
    (setPreset s pid).taskPanelOpen = s.taskPanelOpen ∧
    (setPreset s pid).past = s.past ∧ (setPreset s pid).future = s.future := by
  refine ⟨?_, by simp [setPreset], by simp [setPreset], by simp [setPreset],
    by simp [setPreset], by simp [setPreset], by simp [setPreset], by simp [setPreset],
    by simp [setPreset], by simp [setPreset], by simp [setPreset], by simp [setPreset]⟩
  simp only [setPreset]
  exact List.map_congr_left fun n _ => by
    simp only [reconcileNode]
    by_cases ht : n.type = "task"
    · by_cases hd : n.data.department = ""
      · simp [ht, hd]
      · by_cases hm : n.data.department ∈ (getPresetById pid).categories.map fun c => c.name
        · have : ((getPresetById pid).categories.map fun c => c.name).contains
              n.data.department = true := by simpa using hm
          simp [ht, hd, hm, this]
        · have : ((getPresetById pid).categories.map fun c => c.name).contains
              n.data.department = false := by simpa using hm
          simp [ht, hd, hm, this]
    · simp [ht]

/-! ### Claim C6 -/

/-- C6: `addEdge` ignores self-loops and exact `(source, target,
sourceHandle, targetHandle)` duplicates entirely, and otherwise appends
exactly one new edge carrying the freshly generated id and edge type
`blocks`, leaving the existing edges (and every other state field except the
history stacks) unchanged. -/
theorem addEdge_spec :
    (∀ (s : PMGraphState) (c : Connection) (freshId : String),
      c.source = c.target → addEdge s c freshId = s) ∧
    (∀ (s : PMGraphState) (c : Connection) (freshId : String),
      isDuplicateEdge s.edges c = true → addEdge s c freshId = s) ∧
    (∀ (s : PMGraphState) (c : Connection) (freshId : String),
      c.source ≠ c.target → isDuplicateEdge s.edges c = false →
      (addEdge s c freshId).edges = s.edges ++ [mkNewEdge c freshId] ∧
      (addEdge s c freshId).nodes = s.nodes ∧
      (mkNewEdge c freshId).id = freshId ∧
      edgeTypeOf (mkNewEdge c freshId) = .blocks) := by
  refine ⟨fun s c freshId h => ?_, fun s c freshId h => ?_, fun s c freshId h1 h2 => ?_⟩
  · simp [addEdge, h]
  · simp only [addEdge, h]
    split <;> rfl
  · simp [addEdge, h1, h2, mkNewEdge, edgeTypeOf]

/-- Witness for C6 at a concrete successful connection request. -/
theorem addEdge_spec_witness :
    ("a" : String) ≠ "b" ∧ isDuplicateEdge initialState.edges ⟨"a", "b", none, none⟩ = false ∧
    ((addEdge initialState ⟨"a", "b", none, none⟩ "e1").edges =
        initialState.edges ++ [mkNewEdge ⟨"a", "b", none, none⟩ "e1"] ∧
      (addEdge initialState ⟨"a", "b", none, none⟩ "e1").nodes = initialState.nodes ∧
      (mkNewEdge ⟨"a", "b", none, none⟩ "e1").id = "e1" ∧
      edgeTypeOf (mkNewEdge ⟨"a", "b", none, none⟩ "e1") = .blocks) :=
  ⟨by decide, by decide,
    addEdge_spec.2.2 initialState ⟨"a", "b", none, none⟩ "e1" (by decide) (by decide)⟩

/-! ### Claim C3 -/

/-- C3 (counterexample to the claim as stated): `deleteNode` on an id that
matches no node is *not* a full no-op — it pushes a (redundant) snapshot
onto the empty past stack, changing the store state. -/
theorem invalid_op_mutates_history_counterexample :
    (∀ n ∈ initialState.nodes, n.id ≠ "missing") ∧
    deleteNode initialState "missing" ≠ initialState := by
  constructor
  · decide
  · intro h
    have := congrArg PMGraphState.past h
    simp [deleteNode, pushHistory, initialState, currentSlice, defaultFilters] at this

/-- C3 (amended): rejected `addEdge` calls, `undo` on an empty past and
`redo` on an empty future leave the entire store state unchanged; but
`deleteNode`/`updateNode` on an id matching no node (and, for `deleteNode`,
no edge endpoint and not the current selection) and
`removeEdge`/`cycleEdgeType`/`setEdgeType` on an id matching no stored edge
(synthetic ids never being stored) leave everything unchanged *except* that
they still push a redundant snapshot onto the past stack and clear the
future stack. -/
theorem invalid_ops_behavior :
    (∀ (s : PMGraphState) (c : Connection) (fid : String),
      c.source = c.target → addEdge s c fid = s) ∧
    (∀ (s : PMGraphState) (c : Connection) (fid : String),
      isDuplicateEdge s.edges c = true → addEdge s c fid = s) ∧
    (∀ s : PMGraphState, s.past = [] → undo s = s) ∧
    (∀ s : PMGraphState, s.future = [] → redo s = s) ∧
    (∀ (s : PMGraphState) (id : String), (∀ n ∈ s.nodes, n.id ≠ id) →
      (∀ e ∈ s.edges, e.source ≠ id ∧ e.target ≠ id) → s.selectedNodeId ≠ some id →
      deleteNode s id =
        { s with past := pushHistory s.past (currentSlice s), future := [] }) ∧
    (∀ (s : PMGraphState) (id : String) (d : PartialTaskData), (∀ n ∈ s.nodes, n.id ≠ id) →
      updateNode s id d =
        { s with past := pushHistory s.past (currentSlice s), future := [] }) ∧
    (∀ (s : PMGraphState) (id : String), (∀ e ∈ s.edges, e.id ≠ id) →
      removeEdge s id =
        { s with past := pushHistory s.past (currentSlice s), future := [] }) ∧
    (∀ (s : PMGraphState) (id : String), (∀ e ∈ s.edges, e.id ≠ id) →
      cycleEdgeType s id =
        { s with past := pushHistory s.past (currentSlice s), future := [] }) ∧
    (∀ (s : PMGraphState) (id : String) (t : EdgeType), (∀ e ∈ s.edges, e.id ≠ id) →
      setEdgeType s id t =
        { s with past := pushHistory s.past (currentSlice s), future := [] }) := by
  refine ⟨fun s c fid h => by simp [addEdge, h],
    fun s c fid h => by simp only [addEdge, h]; split <;> rfl,
    fun s h => by simp [undo, h],
    fun s h => by simp [redo, h],
    fun s id h he hsel => ?_, fun s id d h => ?_, fun s id h => ?_,
    fun s id h => ?_, fun s id t h => ?_⟩
  · have hn : s.nodes.filter (fun n => !(n.id == id)) = s.nodes :=
      list_filter_id _ _ fun n hn => by simp [h n hn]
    have hedge : s.edges.filter (fun e => !(e.source == id) && !(e.target == id)) = s.edges :=
      list_filter_id _ _ fun e hee => by simp [(he e hee).1, (he e hee).2]
    have hs : (s.selectedNodeId == some id) = false := by simpa using hsel
    cases s
    simp_all [deleteNode]
  · have hn : (s.nodes.map fun n =>
        if n.id == id then { n with data := mergeData n.data d } else n) = s.nodes :=
      list_map_id _ _ fun n hn => by simp [h n hn]
    cases s
    simp_all [updateNode]
  · have hedge : s.edges.filter (fun e => !(e.id == id)) = s.edges :=
      list_filter_id _ _ fun e hee => by simp [h e hee]
    cases s
    simp_all [removeEdge]
  · have hedge : (s.edges.map fun e =>
        if !(e.id == id) then e
        else
          let current := edgeTypeOf e
          let idx := EDGE_TYPE_CYCLE.indexOf current
          let next := EDGE_TYPE_CYCLE.getD ((idx + 1) % EDGE_TYPE_CYCLE.length) .blocks
          match e.data with
          | some dd => { e with data := some { dd with edgeType := next } }
          | none => { e with data := some { edgeType := next } }) = s.edges :=
      list_map_id _ _ fun e hee => by simp [h e hee]
    cases s
    simp_all [cycleEdgeType]
  · have hedge : (s.edges.map fun e =>
        if e.id == id then
          match e.data with
          | some dd => { e with data := some { dd with edgeType := t } }
          | none => { e with data := some { edgeType := t } }
        else e) = s.edges :=
      list_map_id _ _ fun e hee => by simp [h e hee]
    cases s
    simp_all [setEdgeType]

/-- Witness for C3 (amended) at concrete inputs: a rejected self-loop is a
full no-op, and `removeEdge` on a missing id only touches the history
stacks. -/
theorem invalid_ops_behavior_witness :
    (⟨"x", "x", none, none⟩ : Connection).source = Connection.target ⟨"x", "x", none, none⟩ ∧
    addEdge initialState ⟨"x", "x", none, none⟩ "e9" = initialState ∧
    (∀ e ∈ initialState.edges, e.id ≠ "ghost") ∧
    removeEdge initialState "ghost" =
      { initialState with past := pushHistory initialState.past (currentSlice initialState)
                          future := [] } :=
  ⟨rfl, invalid_ops_behavior.1 initialState ⟨"x", "x", none, none⟩ "e9" rfl,
    by decide,
    invalid_ops_behavior.2.2.2.2.2.2.1 initialState "ghost" (by decide)⟩

/-! ### Claim C4 -/

/-- A group `G` with one child task `C` (for the C4 counterexample). -/
def groupWithChildState : PMGraphState :=
  { initialState with nodes :=
      [ createGroupNode ⟨0, 0⟩ "Group" "#fff" "G",
        { createDefaultNode ⟨0, 0⟩ {} "C" with parentId := some "G" } ] }

/-- Two plain task nodes `A` and `B` (for the C4 counterexample). -/
def twoTasksState : PMGraphState :=
  { initialState with nodes :=
      [createDefaultNode ⟨0, 0⟩ {} "A", createDefaultNode ⟨1, 1⟩ {} "B"] }

/-- C4 (counterexample to the claim as stated): deleting group `G` leaves its
child's `parentId` dangling at `G` (no decoupling), and `moveNodeToGroup`
happily sets a task node's `parentId` to the id of another *task* node. -/
theorem parent_invariant_counterexample :
    ((deleteNode groupWithChildState "G").nodes.any
        (fun n => n.parentId == some "G") = true ∧
      (deleteNode groupWithChildState "G").nodes.any (fun n => n.id == "G") = false) ∧
    (((moveNodeToGroup twoTasksState "A" (some "B")).nodes.find?
          (fun n => n.id == "A")).map (fun n => n.parentId) = some (some "B") ∧
      (twoTasksState.nodes.find? (fun n => n.id == "B")).map (fun n => n.type) =
        some "task") := by
  decide

/-- C4 (amended): `deleteNode` removes only the node whose id matches,
keeping every other node — children of a deleted group included —
byte-for-byte unchanged, so a child's `parentId` keeps pointing at the
deleted group; and `moveNodeToGroup` reparents a non-group node onto *any*
existing target node id (no check that the target is a group), translating
the position into clamped target-relative coordinates. -/
theorem deleteNode_moveNodeToGroup_parent_behavior :
    (∀ (s : PMGraphState) (gid : String) (n : Node),
      n ∈ s.nodes → n.id ≠ gid → n ∈ (deleteNode s gid).nodes) ∧
    (∀ (s : PMGraphState) (nid gid : String) (node group : Node),
      s.nodes.find? (fun n => n.id == nid) = some node → node.type ≠ "group" →
      gid ≠ "" → s.nodes.find? (fun n => n.id == gid) = some group →
      (moveNodeToGroup s nid (some gid)).nodes = s.nodes.map fun n =>
        if n.id == nid then
          { n with parentId := some gid
                   position := ⟨max 10 (node.position.x - group.position.x),
                                max 40 (node.position.y - group.position.y)⟩ }
        else n) := by
  constructor
  · intro s gid n hn hne
    simp [deleteNode, List.mem_filter, hn, hne]
  · intro s nid gid node group hfind htype hgid hgroup
    have ht : (node.type == "group") = false := by simpa using htype
    have hg : (gid == "") = false := by simpa using hgid
    simp [moveNodeToGroup, hfind, ht, hg, hgroup]

/-- Witness for C4 (amended) at the concrete two-task state. -/
theorem deleteNode_moveNodeToGroup_parent_behavior_witness :
    twoTasksState.nodes.find? (fun n => n.id == "A") =
        some (createDefaultNode ⟨0, 0⟩ {} "A") ∧
    (createDefaultNode ⟨0, 0⟩ {} "A").type ≠ "group" ∧
    ("B" : String) ≠ "" ∧
    twoTasksState.nodes.find? (fun n => n.id == "B") =
        some (createDefaultNode ⟨1, 1⟩ {} "B") ∧
    (moveNodeToGroup twoTasksState "A" (some "B")).nodes = twoTasksState.nodes.map
      (fun n =>
        if n.id == "A" then
          { n with parentId := some "B"
                   position :=
                     ⟨max 10 ((createDefaultNode ⟨0, 0⟩ {} "A").position.x -
                         (createDefaultNode ⟨1, 1⟩ {} "B").position.x),
                      max 40 ((createDefaultNode ⟨0, 0⟩ {} "A").position.y -
                         (createDefaultNode ⟨1, 1⟩ {} "B").position.y)⟩ }
        else n) :=
  ⟨by decide, by decide, by decide, by decide,
    deleteNode_moveNodeToGroup_parent_behavior.2 twoTasksState "A" "B"
      (createDefaultNode ⟨0, 0⟩ {} "A") (createDefaultNode ⟨1, 1⟩ {} "B")
      (by decide) (by decide) (by decide) (by decide)⟩


/-! ### Claim C5 -/

/-- `Set.add` membership. -/
theorem mem_setAdd (l : List String) (x y : String) :
    y ∈ setAdd l x ↔ y ∈ l ∨ y = x := by
  simp only [setAdd]
  split
  · rename_i h
    constructor
    · exact Or.inl
    · rintro (hy | rfl)
      · exact hy
      · simpa using h
  · simp [List.mem_append]

theorem mem_foldl_setAdd (p : Node → Bool) :
    ∀ (l : List Node) (acc : List String) (x : String),
      x ∈ l.foldl (fun acc n => if p n then setAdd acc n.id else acc) acc ↔
        x ∈ acc ∨ ∃ n ∈ l, p n = true ∧ n.id = x := by
  intro l
  induction l with
  | nil => simp
  | cons a t ih =>
    intro acc x
    simp only [List.foldl_cons]
    rw [ih]
    by_cases hp : p a = true
    · simp only [hp, if_true, mem_setAdd, List.mem_cons]
      constructor
      · rintro (⟨hy | rfl⟩ | ⟨n, hn, hpn, hid⟩)
        · exact Or.inl hy
        · exact Or.inr ⟨a, Or.inl rfl, hp, rfl⟩
        · exact Or.inr ⟨n, Or.inr hn, hpn, hid⟩
      · rintro (hy | ⟨n, hn | hn, hpn, hid⟩)
        · exact Or.inl (Or.inl hy)
        · subst hn; exact Or.inl (Or.inr hid.symm)
        · exact Or.inr ⟨n, hn, hpn, hid⟩
    · rw [if_neg hp]
      constructor
      · rintro (hy | ⟨n, hn, hpn, hid⟩)
        · exact Or.inl hy
        · exact Or.inr ⟨n, List.mem_cons_of_mem a hn, hpn, hid⟩
      · rintro (hy | ⟨n, hn, hpn, hid⟩)
        · exact Or.inl hy
        · rcases List.mem_cons.mp hn with rfl | hmem
          · exact absurd hpn hp
          · exact Or.inr ⟨n, hmem, hpn, hid⟩

theorem mem_foldl_setAdd_all :
    ∀ (l : List Node) (acc : List String) (x : String),
      x ∈ l.foldl (fun acc n => setAdd acc n.id) acc ↔
        x ∈ acc ∨ ∃ n ∈ l, n.id = x := by
  intro l
  have h := mem_foldl_setAdd (fun _ => true) l
  simp only [if_true] at h
  intro acc x
  rw [h]
  simp



theorem getFilteredNodeIds_spec (nodes : List Node) (filters : Filters) (x : String) :
    x ∈ getFilteredNodeIds nodes filters ↔
      ∃ n ∈ nodes, n.id = x ∧
        (n.type ≠ "task" ∨
          ((filters.departments = [] ∨ n.data.department ∈ filters.departments) ∧
           (filters.priority = "" ∨ n.data.priority = filters.priority) ∧
           (filters.assignee = "" ∨
             strIncludes n.data.assignee.toLower filters.assignee.toLower = true) ∧
           (filters.search = "" ∨
             strIncludes n.data.title.toLower filters.search.toLower = true ∨
             strIncludes n.data.assignee.toLower filters.search.toLower = true))) := by
  unfold getFilteredNodeIds
  by_cases hnf : (filters.departments.isEmpty && (filters.priority == "") &&
      (filters.assignee == "") && (filters.search == "")) = true
  · have hd : filters.departments = [] := by
      simp only [Bool.and_eq_true] at hnf
      simpa [List.isEmpty_iff] using hnf.1.1.1
    have hp : filters.priority = "" := by
      simp only [Bool.and_eq_true] at hnf
      simpa using hnf.1.1.2
    have ha : filters.assignee = "" := by
      simp only [Bool.and_eq_true] at hnf
      simpa using hnf.1.2
    have hs : filters.search = "" := by
      simp only [Bool.and_eq_true] at hnf
      simpa using hnf.2
    rw [if_pos hnf, mem_foldl_setAdd_all]
    simp [hd, hp, ha, hs]
  · rw [if_neg hnf]
    have hfold : (fun (acc : List String) (n : Node) =>
        if !(n.type == "task") then setAdd acc n.id
        else if taskNodeMatches filters n.data then setAdd acc n.id else acc) =
        (fun (acc : List String) (n : Node) =>
          if (!(n.type == "task") || taskNodeMatches filters n.data) then
            setAdd acc n.id else acc) := by
      funext acc n
      by_cases h1 : (n.type == "task")
      · simp [h1]
      · simp [h1]
    have hpt : ∀ n : Node,
        ((!(n.type == "task") || taskNodeMatches filters n.data) = true) ↔
        (n.type ≠ "task" ∨
          ((filters.departments = [] ∨ n.data.department ∈ filters.departments) ∧
           (filters.priority = "" ∨ n.data.priority = filters.priority) ∧
           (filters.assignee = "" ∨
             strIncludes n.data.assignee.toLower filters.assignee.toLower = true) ∧
           (filters.search = "" ∨
             strIncludes n.data.title.toLower filters.search.toLower = true ∨
             strIncludes n.data.assignee.toLower filters.search.toLower = true))) := by
      intro n
      simp [taskNodeMatches, List.isEmpty_iff]
      tauto
    rw [hfold, mem_foldl_setAdd]
    simp only [List.not_mem_nil, false_or]
    exact exists_congr fun n => and_congr_right fun _ => by rw [hpt n]; exact and_comm


/-! ### Claim C7 -/

theorem foldl_const {α β : Type} (f : β → α → β) (h : ∀ b a, f b a = b) :
    ∀ (l : List α) (b : β), l.foldl f b = b := by
  intro l
  induction l with
  | nil => intro b; rfl
  | cons a t ih => intro b; rw [List.foldl_cons, h b a]; exact ih b

theorem childToGroup_nil (nodes : List Node) : childToGroup nodes [] = [] := by
  unfold childToGroup
  exact foldl_const _ (fun m n => by cases n.parentId <;> simp) nodes []

theorem displayEdgesStep_no_syn (acc : List Edge × List (String × Edge)) (e : Edge) :
    displayEdgesStep [] false acc e = (acc.1 ++ [e], acc.2) := by
  simp [displayEdgesStep]

theorem displayEdges_no_collapsed (nodes : List Node) (edges : List Edge) :
    displayEdges nodes edges [] = edges := by
  unfold displayEdges displayEdgesParts
  rw [childToGroup_nil]
  simp only [List.isEmpty_nil, Bool.not_true]
  have h : ∀ (es : List Edge) (acc : List Edge × List (String × Edge)),
      es.foldl (displayEdgesStep [] false) acc = (acc.1 ++ es, acc.2) := by
    intro es
    induction es with
    | nil => intro acc; simp
    | cons e t ih =>
      intro acc
      rw [List.foldl_cons, displayEdgesStep_no_syn, ih]
      simp
  rw [h edges ([], [])]
  simp

theorem displayEdgesStep_fst (ctg : List (String × String)) (hasSyn : Bool)
    (acc : List Edge × List (String × Edge)) (e : Edge) :
    (displayEdgesStep ctg hasSyn acc e).1 = acc.1 ∨
    (displayEdgesStep ctg hasSyn acc e).1 = acc.1 ++ [e] := by
  dsimp only [displayEdgesStep]
  split
  · exact Or.inr rfl
  · split
    · exact Or.inl rfl
    · split
      · split
        · exact Or.inl rfl
        · exact Or.inl rfl
      · exact Or.inl rfl

theorem mem_displayEdgesParts_fst (ctg : List (String × String)) (hasSyn : Bool) :
    ∀ (es : List Edge) (acc : List Edge × List (String × Edge)) (e : Edge),
      e ∈ (es.foldl (displayEdgesStep ctg hasSyn) acc).1 → e ∈ acc.1 ∨ e ∈ es := by
  intro es
  induction es with
  | nil => intro acc e h; exact Or.inl h
  | cons a t ih =>
    intro acc e h
    simp only [List.foldl_cons] at h
    rcases ih _ e h with hacc | ht
    · rcases displayEdgesStep_fst ctg hasSyn acc a with h1 | h2
      · rw [h1] at hacc; exact Or.inl hacc
      · rw [h2] at hacc
        rcases List.mem_append.mp hacc with h3 | h4
        · exact Or.inl h3
        · simp only [List.mem_singleton] at h4
          exact Or.inr (by simp [h4])
    · exact Or.inr (List.mem_cons_of_mem a ht)

/-- C7: computing the derived edge view never changes the stored edges:
every pass-through edge in the derived view is one of the stored edges,
unmodified; `toggleGroupCollapse` never touches the stored edge collection;
collapsing and re-expanding a group restores the collapsed-group set; and
with no collapsed group the derived view is exactly the stored edge list,
ids, endpoints, handles and edge types included. -/
theorem aggregation_never_mutates_stored_edges :
    (∀ (s : PMGraphState) (g : String), (toggleGroupCollapse s g).edges = s.edges) ∧
    (∀ (s : PMGraphState) (g : String), g ∉ s.collapsedGroups →
      (toggleGroupCollapse (toggleGroupCollapse s g) g).collapsedGroups =
        s.collapsedGroups) ∧
    (∀ (nodes : List Node) (edges : List Edge), displayEdges nodes edges [] = edges) ∧
    (∀ (nodes : List Node) (edges : List Edge) (collapsed : List String) (e : Edge),
      e ∈ (displayEdgesParts nodes edges collapsed).1 → e ∈ edges) := by
  refine ⟨fun s g => by simp [toggleGroupCollapse], fun s g hg => ?_,
    displayEdges_no_collapsed, fun nodes edges collapsed e h => ?_⟩
  · have h1 : s.collapsedGroups.contains g = false := by simpa using hg
    have h2 : (s.collapsedGroups ++ [g]).contains g = true := by simp
    simp only [toggleGroupCollapse, h1, h2, Bool.false_eq_true, if_false, if_true]
    rw [List.erase_append_right _ hg]
    simp
  · dsimp only [displayEdgesParts] at h
    rcases mem_displayEdgesParts_fst _ _ edges ([], []) e h with h0 | h1
    · simp at h0
    · exact h1

/-- Witness for C7 at a concrete group id. -/
theorem aggregation_never_mutates_stored_edges_witness :
    "G" ∉ initialState.collapsedGroups ∧
    (toggleGroupCollapse (toggleGroupCollapse initialState "G") "G").collapsedGroups =
      initialState.collapsedGroups :=
  ⟨by decide, aggregation_never_mutates_stored_edges.2.1 initialState "G" (by decide)⟩


/-! ### Claim C1 -/

theorem pushesHistory_spec (s : PMGraphState) (m : Mutation)
    (h : pushesHistory s m = true) :
    (applyMutation s m).past = pushHistory s.past (currentSlice s) ∧
    (applyMutation s m).future = [] := by
  cases m with
  | addNode p d fid => exact ⟨rfl, rfl⟩
  | updateNode id d => exact ⟨rfl, rfl⟩
  | deleteNode id => exact ⟨rfl, rfl⟩
  | addGroupNode p t c fid => exact ⟨rfl, rfl⟩
  | toggleGroupCollapse g => exact ⟨rfl, rfl⟩
  | removeEdge id => exact ⟨rfl, rfl⟩
  | cycleEdgeType id => exact ⟨rfl, rfl⟩
  | setEdgeType id t => exact ⟨rfl, rfl⟩
  | addEdge c fid =>
    simp only [pushesHistory, Bool.and_eq_true, Bool.not_eq_true'] at h
    simp [applyMutation, addEdge, h.1, h.2]
  | moveNodeToGroup nid gid =>
    simp only [pushesHistory] at h
    cases hf : s.nodes.find? (fun n => n.id == nid) with
    | none => rw [hf] at h; simp at h
    | some node =>
      rw [hf] at h
      by_cases ht : (node.type == "group") = true
      · simp [ht] at h
      · have ht2 : (node.type == "group") = false := by simpa using ht
        simp only [ht2, Bool.false_eq_true, if_false] at h
        cases hg : (if gid == some "" then none else gid) with
        | none =>
          rw [hg] at h
          simp only [applyMutation, moveNodeToGroup, hf, ht2, hg, Bool.false_eq_true,
            if_false]
          exact ⟨by trivial, by trivial⟩
        | some g =>
          rw [hg] at h
          simp only [] at h
          cases hf2 : s.nodes.find? (fun n => n.id == g) with
          | none => rw [hf2] at h; simp at h
          | some grp =>
            simp only [applyMutation, moveNodeToGroup, hf, ht2, hg, hf2,
              Bool.false_eq_true, if_false]
            exact ⟨by trivial, by trivial⟩

theorem roundtrip_aux : ∀ (ms : List Mutation) (s : PMGraphState),
    allPush s ms = true → ms.length ≤ 50 →
    (undoN ms.length (applyAll s ms)).nodes = s.nodes ∧
    (undoN ms.length (applyAll s ms)).edges = s.edges ∧
    ∃ d, d ≤ s.past.length + ms.length - 50 ∧
      (undoN ms.length (applyAll s ms)).past = s.past.drop d := by
  intro ms
  induction ms with
  | nil =>
    intro s _ _
    exact ⟨rfl, rfl, 0, Nat.zero_le _, by simp [undoN, applyAll]⟩
  | cons m ms ih =>
    intro s hp hlen
    simp only [allPush, Bool.and_eq_true] at hp
    obtain ⟨hm, hrest⟩ := hp
    obtain ⟨hpast1, _⟩ := pushesHistory_spec s m hm
    have hlen' : ms.length ≤ 50 := by
      simp only [List.length_cons] at hlen; omega
    obtain ⟨hn, he, d, hd, hpast⟩ := ih (applyMutation s m) hrest hlen'
    have h50 : ms.length + 1 ≤ 50 := by simpa using hlen
    have hBdef : pushHistory s.past (currentSlice s) =
        s.past.drop (s.past.length - 49) ++ [currentSlice s] := by
      simp [pushHistory, MAX_HISTORY]
    have hBlen : (s.past.drop (s.past.length - 49)).length =
        s.past.length - (s.past.length - 49) := List.length_drop _ _
    have hs1len : (applyMutation s m).past.length =
        (s.past.drop (s.past.length - 49)).length + 1 := by
      rw [hpast1, hBdef]; simp
    have hdB : d ≤ (s.past.drop (s.past.length - 49)).length := by
      rw [hs1len] at hd
      omega
    have htpast : (undoN ms.length (applyAll (applyMutation s m) ms)).past =
        (s.past.drop (s.past.length - 49)).drop d ++ [currentSlice s] := by
      rw [hpast, hpast1, hBdef, List.drop_append_of_le_length hdB]
    have hlast : (undoN ms.length (applyAll (applyMutation s m) ms)).past.getLast? =
        some (currentSlice s) := by
      rw [htpast]; exact List.getLast?_concat _
    have happ : applyAll s (m :: ms) = applyAll (applyMutation s m) ms := rfl
    have hundo : undoN (m :: ms).length (applyAll s (m :: ms)) =
        undo (undoN ms.length (applyAll (applyMutation s m) ms)) := rfl
    rw [hundo]
    refine ⟨by simp [undo, hlast, currentSlice], by simp [undo, hlast, currentSlice], ?_⟩
    refine ⟨s.past.length - 49 + d, ?_, ?_⟩
    · rw [hs1len, hBlen] at hd
      simp only [List.length_cons]
      omega
    · have hup : (undo (undoN ms.length (applyAll (applyMutation s m) ms))).past =
          (undoN ms.length (applyAll (applyMutation s m) ms)).past.dropLast := by
        simp [undo, hlast]
      rw [hup, htpast, List.dropLast_concat, List.drop_drop]


/-- A state holding one task node and one stale history slice (for the C1
counterexample: a rejected self-loop records nothing, so the undo pops the
stale slice instead). -/
def staleHistoryState : PMGraphState :=
  { initialState with nodes := [createDefaultNode ⟨0, 0⟩ {} "a"]
                      past := [⟨[], []⟩] }

set_option maxRecDepth 10000 in
/-- C1 (counterexample to the claim as stated): the round trip fails both for
a mutation that does not record a snapshot (a rejected self-loop `addEdge`
pops an older, unrelated slice) and for `N = 51 > 50` (the oldest snapshot is
evicted, so the 51st undo cannot restore the initial state). -/
theorem history_roundtrip_counterexample :
    (undoN 1 (applyAll staleHistoryState
        [Mutation.addEdge ⟨"a", "a", none, none⟩ "e"])).nodes ≠
      staleHistoryState.nodes ∧
    (undoN 51 (applyAll initialState
        (List.replicate 51 (Mutation.addNode ⟨0, 0⟩ {} "n")))).nodes ≠
      initialState.nodes := by
  constructor
  · decide
  · decide

/-- C1 (amended): for every starting state and every sequence of at most 50
structural mutations, each of which records a history snapshot at the state
where it is applied (all listed mutations do except `addEdge` rejecting a
self-loop or duplicate and `moveNodeToGroup` rejecting a missing or group
node or a missing target), followed by as many `undo()` calls, the resulting
`(nodes, edges)` pair is structurally identical to the pre-sequence pair. -/
theorem mutations_then_undos_roundtrip (s : PMGraphState) (ms : List Mutation)
    (hp : allPush s ms = true) (hn : ms.length ≤ 50) :
    (undoN ms.length (applyAll s ms)).nodes = s.nodes ∧
    (undoN ms.length (applyAll s ms)).edges = s.edges :=
  ⟨(roundtrip_aux ms s hp hn).1, (roundtrip_aux ms s hp hn).2.1⟩

/-- Witness for C1 (amended) on a concrete two-mutation sequence. -/
theorem mutations_then_undos_roundtrip_witness :
    allPush initialState [Mutation.addNode ⟨1, 2⟩ {} "n1",
      Mutation.addEdge ⟨"n1", "n2", none, none⟩ "e1"] = true ∧
    ([Mutation.addNode ⟨1, 2⟩ {} "n1",
      Mutation.addEdge ⟨"n1", "n2", none, none⟩ "e1"] : List Mutation).length ≤ 50 ∧
    ((undoN 2 (applyAll initialState [Mutation.addNode ⟨1, 2⟩ {} "n1",
        Mutation.addEdge ⟨"n1", "n2", none, none⟩ "e1"])).nodes = initialState.nodes ∧
     (undoN 2 (applyAll initialState [Mutation.addNode ⟨1, 2⟩ {} "n1",
        Mutation.addEdge ⟨"n1", "n2", none, none⟩ "e1"])).edges = initialState.edges) :=
  ⟨by decide, by decide,
    mutations_then_undos_roundtrip initialState
      [Mutation.addNode ⟨1, 2⟩ {} "n1", Mutation.addEdge ⟨"n1", "n2", none, none⟩ "e1"]
      (by decide) (by decide)⟩


/-! ### Claim C2: JS `Map` lemmas and the aggregation fold invariant -/

theorem mapGet_mapSet_self {α : Type} (m : List (String × α)) (k : String) (v : α) :
    mapGet (mapSet m k v) k = some v := by
  simp only [mapSet]
  split
  · rename_i h
    induction m with
    | nil => simp at h
    | cons p t ih =>
      simp only [List.any_cons, Bool.or_eq_true] at h
      by_cases hp : (p.1 == k) = true
      · simp [mapGet, List.find?, hp]
      · rcases h with h | h
        · exact absurd h hp
        · simp only [List.map_cons, hp, if_neg, Bool.false_eq_true, ite_false]
          have := ih h
          simp only [mapGet] at this ⊢
          rw [List.find?_cons_of_neg _ (by simpa using hp)]
          exact this
  · induction m with
    | nil => simp [mapGet]
    | cons p t ih =>
      rename_i h
      simp only [List.any_cons, Bool.or_eq_true, not_or] at h
      simp only [mapGet] at ih ⊢
      rw [List.cons_append, List.find?_cons_of_neg _ (by simpa using h.1)]
      exact ih (by simpa using h.2)

theorem mapGet_map_replace {α : Type} (m : List (String × α)) (k k' : String) (v : α)
    (hne : k' ≠ k) :
    mapGet (m.map (fun p => if p.1 == k then (k, v) else p)) k' = mapGet m k' := by
  induction m with
  | nil => rfl
  | cons p t ih =>
    by_cases hp : (p.1 == k) = true
    · have hp1 : p.1 = k := by simpa using hp
      simp only [List.map_cons, hp, ite_true, mapGet]
      rw [List.find?_cons_of_neg _ (by simpa using Ne.symm hne),
        List.find?_cons_of_neg _ (by simp [hp1]; simpa using Ne.symm hne)]
      exact ih
    · simp only [List.map_cons, hp, Bool.false_eq_true, ite_false, mapGet]
      by_cases hq : (p.1 == k') = true
      · simp [List.find?, hq]
      · rw [List.find?_cons_of_neg _ (by simpa using hq),
          List.find?_cons_of_neg _ (by simpa using hq)]
        exact ih

theorem mapGet_mapSet_other {α : Type} (m : List (String × α)) (k k' : String) (v : α)
    (hne : k' ≠ k) :
    mapGet (mapSet m k v) k' = mapGet m k' := by
  have hbeq : ((k : String) == k') = false := by simpa using Ne.symm hne
  simp only [mapSet]
  split
  · exact mapGet_map_replace m k k' v hne
  · simp only [mapGet]
    rw [List.find?_append]
    have hnone : List.find? (fun p => p.1 == k') [(k, v)] = none := by
      simp [List.find?, hbeq]
    rw [hnone]
    simp


theorem mapSet_keys_fst {α : Type} (m : List (String × α)) (k : String) (v : α) :
    (m.map (fun p => if p.1 == k then (k, v) else p)).map Prod.fst = m.map Prod.fst := by
  rw [List.map_map]
  apply List.map_congr_left
  intro p _
  by_cases hp : (p.1 == k) = true
  · simp only [Function.comp_apply, hp, ite_true]
    exact (beq_iff_eq.mp hp).symm
  · simp [Function.comp, hp]

theorem mapSet_keys_nodup {α : Type} (m : List (String × α)) (k : String) (v : α)
    (h : (m.map Prod.fst).Nodup) : ((mapSet m k v).map Prod.fst).Nodup := by
  simp only [mapSet]
  split
  · rw [mapSet_keys_fst]
    exact h
  · rename_i hany
    have hk : k ∉ m.map Prod.fst := by
      intro hmem
      obtain ⟨p, hp, hpk⟩ := List.mem_map.mp hmem
      exact hany (List.any_eq_true.mpr ⟨p, hp, by simp [hpk]⟩)
    simp only [List.map_append, List.map_cons, List.map_nil]
    rw [List.nodup_append]
    exact ⟨h, List.nodup_singleton k, by simpa using hk⟩

theorem displayEdgesStep_snd (ctg : List (String × String)) (hasSyn : Bool)
    (acc : List Edge × List (String × Edge)) (e : Edge) :
    (displayEdgesStep ctg hasSyn acc e).2 = acc.2 ∨
    ∃ key v, (displayEdgesStep ctg hasSyn acc e).2 = mapSet acc.2 key v := by
  dsimp only [displayEdgesStep]
  split
  · exact Or.inl rfl
  · split
    · exact Or.inl rfl
    · split
      · split
        · exact Or.inr ⟨_, _, rfl⟩
        · exact Or.inl rfl
      · exact Or.inr ⟨_, _, rfl⟩

theorem foldl_keys_nodup (ctg : List (String × String)) (hasSyn : Bool) :
    ∀ (es : List Edge) (acc : List Edge × List (String × Edge)),
      (acc.2.map Prod.fst).Nodup →
      ((es.foldl (displayEdgesStep ctg hasSyn) acc).2.map Prod.fst).Nodup := by
  intro es
  induction es with
  | nil => intro acc h; exact h
  | cons e t ih =>
    intro acc h
    rw [List.foldl_cons]
    apply ih
    rcases displayEdgesStep_snd ctg hasSyn acc e with hs | ⟨key, v, hs⟩
    · rw [hs]; exact h
    · rw [hs]; exact mapSet_keys_nodup _ _ _ h

theorem displayEdgesParts_keys_nodup (nodes : List Node) (edges : List Edge)
    (collapsed : List String) :
    ((displayEdgesParts nodes edges collapsed).2.map Prod.fst).Nodup := by
  dsimp only [displayEdgesParts]
  exact foldl_keys_nodup _ _ edges ([], []) (by simp)

theorem filter_eq_of_mapGet {α : Type} :
    ∀ (m : List (String × α)) (k : String) (v : α),
      (m.map Prod.fst).Nodup → mapGet m k = some v →
      m.filter (fun p => p.1 == k) = [(k, v)] := by
  intro m
  induction m with
  | nil => intro k v _ hg; simp [mapGet] at hg
  | cons p t ih =>
    intro k v hn hg
    by_cases hp : (p.1 == k) = true
    · have hp1 : p.1 = k := by simpa using hp
      have hv : p.2 = v := by
        simp only [mapGet] at hg
        rw [List.find?_cons_of_pos (p := fun q => q.1 == k) t hp] at hg
        simpa using hg
      have hknot : k ∉ t.map Prod.fst := by
        simp only [List.map_cons, List.nodup_cons] at hn
        rw [← hp1]
        exact hn.1
      have hrest : t.filter (fun q => q.1 == k) = [] := by
        rw [List.filter_eq_nil_iff]
        intro q hq hqk
        exact hknot (List.mem_map.mpr ⟨q, hq, by simpa using hqk⟩)
      have hstep : (p :: t).filter (fun q => q.1 == k) =
          p :: t.filter (fun q => q.1 == k) := by
        simp [List.filter_cons, hp]
      rw [hstep, hrest]
      have hpv : p = (k, v) := by
        cases p
        simp only [Prod.mk.injEq]
        exact ⟨hp1, hv⟩
      rw [hpv]
    · have hstep : (p :: t).filter (fun q => q.1 == k) =
          t.filter (fun q => q.1 == k) := by
        simp [List.filter_cons, hp]
      rw [hstep]
      apply ih
      · simp only [List.map_cons, List.nodup_cons] at hn
        exact hn.2
      · simp only [mapGet] at hg ⊢
        rw [List.find?_cons_of_neg (p := fun q => q.1 == k) t (by simpa using hp)] at hg
        exact hg


theorem strongestType_append (e0 : Edge) (rest : List Edge) (e : Edge) :
    strongestType e0 (rest ++ [e]) =
      if EDGE_STRENGTH (edgeTypeOf e) > EDGE_STRENGTH (strongestType e0 rest) then
        edgeTypeOf e
      else strongestType e0 rest := by
  simp [strongestType, List.foldl_append]

theorem contributorsTo_append (ctg : List (String × String)) (hasSyn : Bool)
    (es : List Edge) (e : Edge) (k : String) :
    contributorsTo ctg hasSyn (es ++ [e]) k =
      contributorsTo ctg hasSyn es k ++
        (if (contributes ctg hasSyn e && (edgeKey ctg e == k)) = true then [e] else []) := by
  simp only [contributorsTo, List.filter_append, List.filter_cons, List.filter_nil]

theorem displayEdgesStep_noncontributing (ctg : List (String × String)) (hasSyn : Bool)
    (acc : List Edge × List (String × Edge)) (e : Edge)
    (hc : contributes ctg hasSyn e = false) :
    (displayEdgesStep ctg hasSyn acc e).2 = acc.2 := by
  dsimp only [displayEdgesStep]
  by_cases h1 : (!hasSyn || ((mapGet ctg e.source).isNone &&
      (mapGet ctg e.target).isNone)) = true
  · rw [if_pos h1]
  · have hhs : hasSyn = true := by
      cases hb : hasSyn with
      | true => rfl
      | false => exact absurd (by simp [hb]) h1
    have hsome : ((mapGet ctg e.source).isSome || (mapGet ctg e.target).isSome) = true := by
      cases hs : mapGet ctg e.source with
      | some v => simp
      | none =>
        cases htt : mapGet ctg e.target with
        | some w => simp
        | none => exact absurd (by simp [hs, htt]) h1
    have heq : (remapSource ctg e == remapTarget ctg e) = true := by
      cases hb : (remapSource ctg e == remapTarget ctg e) with
      | true => rfl
      | false =>
        exfalso
        have hct : contributes ctg hasSyn e = true := by
          simp [contributes, hhs, hsome, hb]
        rw [hct] at hc
        simp at hc
    rw [if_neg h1, if_pos (by simpa [remapSource, remapTarget] using heq)]

theorem displayEdgesStep_contributing_new (ctg : List (String × String)) (hasSyn : Bool)
    (acc : List Edge × List (String × Edge)) (e : Edge)
    (hhs : hasSyn = true)
    (hnn : ((mapGet ctg e.source).isNone && (mapGet ctg e.target).isNone) = false)
    (h2 : (remapSource ctg e == remapTarget ctg e) = false)
    (hm : mapGet acc.2 (edgeKey ctg e) = none) :
    (displayEdgesStep ctg hasSyn acc e).2 =
      mapSet acc.2 (edgeKey ctg e)
        { id := "synthetic-" ++ edgeKey ctg e, type := "typed"
          source := remapSource ctg e, target := remapTarget ctg e
          sourceHandle := none, targetHandle := none
          data := some { edgeType := edgeTypeOf e, synthetic := some true
                         count := some 1 } } := by
  simp only [edgeKey, remapSource, remapTarget] at h2 hm ⊢
  dsimp only [displayEdgesStep]
  rw [if_neg (by simp [hhs, hnn]), if_neg (by simp [h2])]
  simp only [hm]

theorem displayEdgesStep_contributing_merge (ctg : List (String × String)) (hasSyn : Bool)
    (acc : List Edge × List (String × Edge)) (e : Edge) (existing : Edge) (d : PMEdgeData)
    (hhs : hasSyn = true)
    (hnn : ((mapGet ctg e.source).isNone && (mapGet ctg e.target).isNone) = false)
    (h2 : (remapSource ctg e == remapTarget ctg e) = false)
    (hm : mapGet acc.2 (edgeKey ctg e) = some existing)
    (hd : existing.data = some d) :
    (displayEdgesStep ctg hasSyn acc e).2 =
      mapSet acc.2 (edgeKey ctg e)
        ({ existing with data := some ({ d with
            count := some (d.count.getD 1 + 1)
            edgeType := if EDGE_STRENGTH (edgeTypeOf e) > EDGE_STRENGTH d.edgeType
              then edgeTypeOf e else d.edgeType }) }) := by
  simp only [edgeKey, remapSource, remapTarget] at h2 hm ⊢
  dsimp only [displayEdgesStep]
  rw [if_neg (by simp [hhs, hnn]), if_neg (by simp [h2])]
  simp only [hm, hd]

theorem synMap_characterization (ctg : List (String × String)) (hasSyn : Bool) :
    ∀ (es : List Edge) (k : String),
      mapGet (es.foldl (displayEdgesStep ctg hasSyn) ([], [])).2 k =
        (match contributorsTo ctg hasSyn es k with
         | [] => none
         | e0 :: rest => some (syntheticFor ctg k e0 rest)) := by
  intro es
  induction es using List.reverseRecOn with
  | nil => intro k; rfl
  | append_singleton es e ih =>
    intro k
    rw [List.foldl_append, List.foldl_cons, List.foldl_nil]
    by_cases hc : contributes ctg hasSyn e = true
    · -- contributing edge
      have hhs : hasSyn = true := by
        simp only [contributes, Bool.and_eq_true] at hc
        exact hc.1.1
      have hsome : ((mapGet ctg e.source).isSome || (mapGet ctg e.target).isSome) = true := by
        simp only [contributes, Bool.and_eq_true] at hc
        exact hc.1.2
      have hnn : ((mapGet ctg e.source).isNone && (mapGet ctg e.target).isNone) = false := by
        have hsome2 : (mapGet ctg e.source).isSome = true ∨
            (mapGet ctg e.target).isSome = true := by simpa using hsome
        rcases hsome2 with h | h
        · cases hs : mapGet ctg e.source with
          | some v => simp [hs]
          | none => rw [hs] at h; simp at h
        · cases hs : mapGet ctg e.target with
          | some v => simp [hs]
          | none => rw [hs] at h; simp at h
      have h2 : (remapSource ctg e == remapTarget ctg e) = false := by
        simp only [contributes, Bool.and_eq_true, Bool.not_eq_true'] at hc
        exact hc.2
      cases hm : mapGet (es.foldl (displayEdgesStep ctg hasSyn) ([], [])).2
          (edgeKey ctg e) with
      | none =>
        rw [displayEdgesStep_contributing_new ctg hasSyn _ e hhs hnn h2 hm]
        have hnil : contributorsTo ctg hasSyn es (edgeKey ctg e) = [] := by
          rcases hcc : contributorsTo ctg hasSyn es (edgeKey ctg e) with _ | ⟨e0, rest⟩
          · rfl
          · have hih := ih (edgeKey ctg e)
            rw [hm, hcc] at hih
            simp at hih
        by_cases hk : k = edgeKey ctg e
        · subst hk
          rw [mapGet_mapSet_self, contributorsTo_append, hnil]
          simp only [hc, beq_self_eq_true, Bool.and_self, if_true, List.nil_append]
          rfl
        · rw [mapGet_mapSet_other _ _ _ _ hk, ih k, contributorsTo_append]
          have hkf : (edgeKey ctg e == k) = false := by
            simpa using fun h => hk h.symm
          simp [hkf]
      | some existing =>
        rcases hcc : contributorsTo ctg hasSyn es (edgeKey ctg e) with _ | ⟨e0, rest⟩
        · have hih := ih (edgeKey ctg e)
          rw [hm, hcc] at hih
          simp at hih
        · have hex : existing = syntheticFor ctg (edgeKey ctg e) e0 rest := by
            have hih := ih (edgeKey ctg e)
            rw [hm, hcc] at hih
            exact Option.some.inj hih
          set d0 : PMEdgeData := { edgeType := strongestType e0 rest,
                                   synthetic := some true,
                                   count := some (rest.length + 1) } with hd0
          have hdata : existing.data = some d0 := by
            rw [hex, hd0]
            rfl
          rw [displayEdgesStep_contributing_merge ctg hasSyn _ e existing d0 hhs hnn h2 hm
            hdata]
          have hmerge : ({ existing with
                             data := some ({ d0 with
                               count := some (d0.count.getD 1 + 1)
                               edgeType :=
                                 if EDGE_STRENGTH (edgeTypeOf e) > EDGE_STRENGTH d0.edgeType
                                 then edgeTypeOf e else d0.edgeType }) }) =
              syntheticFor ctg (edgeKey ctg e) e0 (rest ++ [e]) := by
            rw [hex, hd0]
            simp [syntheticFor, strongestType_append]
          rw [hmerge]
          by_cases hk : k = edgeKey ctg e
          · subst hk
            rw [mapGet_mapSet_self, contributorsTo_append, hcc]
            simp only [hc, beq_self_eq_true, Bool.and_self, if_true, List.cons_append]
          · rw [mapGet_mapSet_other _ _ _ _ hk, ih k, contributorsTo_append]
            have hkf : (edgeKey ctg e == k) = false := by
              simpa using fun h => hk h.symm
            simp [hkf]
    · -- non-contributing edge
      have hcf : contributes ctg hasSyn e = false := by
        cases hb : contributes ctg hasSyn e with
        | true => exact absurd hb hc
        | false => rfl
      rw [displayEdgesStep_noncontributing ctg hasSyn _ e hcf, ih k,
        contributorsTo_append]
      simp [hcf]


theorem displayEdgesStep_internal (ctg : List (String × String)) (hasSyn : Bool)
    (acc : List Edge × List (String × Edge)) (e : Edge)
    (hhs : hasSyn = true)
    (hsome : (mapGet ctg e.source).isSome = true ∨ (mapGet ctg e.target).isSome = true)
    (heq : remapSource ctg e = remapTarget ctg e) :
    displayEdgesStep ctg hasSyn acc e = acc := by
  have hnn : ((mapGet ctg e.source).isNone && (mapGet ctg e.target).isNone) = false := by
    rcases hsome with h | h
    · cases hs : mapGet ctg e.source with
      | some v => simp [hs]
      | none => rw [hs] at h; simp at h
    · cases hs : mapGet ctg e.target with
      | some v => simp [hs]
      | none => rw [hs] at h; simp at h
  have heqb : ((mapGet ctg e.source).getD e.source ==
      (mapGet ctg e.target).getD e.target) = true := by
    simp only [remapSource, remapTarget] at heq
    simp [heq]
  dsimp only [displayEdgesStep]
  rw [if_neg (by simp [hhs, hnn]), if_pos heqb]

theorem displayEdgesParts_snd_get (nodes : List Node) (edges : List Edge)
    (collapsed : List String) (k : String) :
    mapGet (displayEdgesParts nodes edges collapsed).2 k =
      (match contributorsTo (childToGroup nodes collapsed)
          (!(childToGroup nodes collapsed).isEmpty) edges k with
       | [] => none
       | e0 :: rest =>
         some (syntheticFor (childToGroup nodes collapsed) k e0 rest)) := by
  dsimp only [displayEdgesParts]
  exact synMap_characterization _ _ edges k

/-! ### Claim C2 -/

/-- The §8 scenario: group `G` with children `C1`, `C2`, an outside task `X`,
real edges `X→C1` (blocks) and `X→C2` (relates). -/
def collapseScenarioNodes : List Node :=
  [ createDefaultNode ⟨0, 0⟩ {} "X",
    createGroupNode ⟨0, 0⟩ "Group" "#fff" "G",
    { createDefaultNode ⟨0, 0⟩ {} "C1" with parentId := some "G" },
    { createDefaultNode ⟨0, 0⟩ {} "C2" with parentId := some "G" } ]

/-- The §8 scenario's stored edges. -/
def collapseScenarioEdges : List Edge :=
  [ { id := "e1", type := "typed", source := "X", target := "C1"
      sourceHandle := none, targetHandle := none
      data := some { edgeType := .blocks } },
    { id := "e2", type := "typed", source := "X", target := "C2"
      sourceHandle := none, targetHandle := none
      data := some { edgeType := .relates } } ]

/-- A child of collapsed group `g` (so that synthetic aggregation is active)
next to a stored self-loop whose endpoints the collapse map does not touch. -/
def selfLoopNodes : List Node :=
  [ { createDefaultNode ⟨0, 0⟩ {} "c" with parentId := some "g" } ]

/-- A stored self-loop edge `a→a` (not creatable through `addEdge`, but the
derived view is a total function of the stored collections). -/
def selfLoopEdge : Edge :=
  { id := "l", type := "typed", source := "a", target := "a"
    sourceHandle := none, targetHandle := none
    data := some { edgeType := .relates } }

/-- Children of the three collapsed groups `g-1`, `g` and `1-x`, chosen so
that the remapped pairs `(g-1, x)` and `(g, 1-x)` share the joined key string
`g-1-x`. -/
def hyphenCollisionNodes : List Node :=
  [ { createDefaultNode ⟨0, 0⟩ {} "c1" with parentId := some "g-1" },
    { createDefaultNode ⟨0, 0⟩ {} "c2" with parentId := some "g" },
    { createDefaultNode ⟨0, 0⟩ {} "y" with parentId := some "1-x" } ]

/-- Edges `c1→x` and `c2→y` remapping to the colliding pairs. -/
def hyphenCollisionEdges : List Edge :=
  [ { id := "e1", type := "typed", source := "c1", target := "x"
      sourceHandle := none, targetHandle := none
      data := some { edgeType := .blocks } },
    { id := "e2", type := "typed", source := "c2", target := "y"
      sourceHandle := none, targetHandle := none
      data := some { edgeType := .relates } } ]

/-- C2 (counterexample to the claim as stated): (i) a stored self-loop whose
endpoints are untouched by the collapse map has equal remapped endpoints yet
is passed through, not dropped; (ii) the aggregation keys by the joined
string `source ++ "-" ++ target`, which identifies the distinct ordered
pairs `(g-1, x)` and `(g, 1-x)` — the pair `(g, 1-x)` has exactly one
contributing edge, but the derived view contains no edge with those
endpoints at all (both contributors were merged under the first-seen pair). -/
theorem pair_aggregation_counterexample :
    (remapSource (childToGroup selfLoopNodes ["g"]) selfLoopEdge =
        remapTarget (childToGroup selfLoopNodes ["g"]) selfLoopEdge ∧
      displayEdges selfLoopNodes [selfLoopEdge] ["g"] = [selfLoopEdge]) ∧
    ((pairContributors (childToGroup hyphenCollisionNodes ["g-1", "g", "1-x"])
        (!(childToGroup hyphenCollisionNodes ["g-1", "g", "1-x"]).isEmpty)
        hyphenCollisionEdges ("g", "1-x")).length = 1 ∧
      ("g" : String) ≠ "1-x" ∧
      (displayEdges hyphenCollisionNodes hyphenCollisionEdges
          ["g-1", "g", "1-x"]).filter
        (fun e => e.source == "g" && e.target == "1-x") = []) := by
  decide

/-- C2 (amended): in the derived edge view, (a) a real edge with at least one
endpoint in the collapsed child→group map whose remapped source equals its
remapped target is dropped; (b) aggregation is keyed by the joined string
`remappedSource ++ "-" ++ remappedTarget`: for every key with at least one
contributing edge the synthetic map holds exactly one entry, whose count is
the number of contributing edges for that key, whose edgeType is resolved in
input order by strict-strength replacement under blocks(3) > triggers(2) >
relates(1) (so equal-strength ties keep the first-seen type), and whose
endpoints come from the first-seen contributor; (c) in particular the §8
scenario yields exactly one edge `X→G` with count 2 and edgeType blocks. -/
theorem displayEdges_synthetic_aggregation :
    (∀ (nodes : List Node) (collapsed : List String) (es1 es2 : List Edge) (e : Edge),
      ((mapGet (childToGroup nodes collapsed) e.source).isSome = true ∨
        (mapGet (childToGroup nodes collapsed) e.target).isSome = true) →
      remapSource (childToGroup nodes collapsed) e =
        remapTarget (childToGroup nodes collapsed) e →
      displayEdgesParts nodes (es1 ++ e :: es2) collapsed =
        displayEdgesParts nodes (es1 ++ es2) collapsed) ∧
    (∀ (nodes : List Node) (collapsed : List String) (edges : List Edge) (k : String)
      (e0 : Edge) (rest : List Edge),
      contributorsTo (childToGroup nodes collapsed)
          (!(childToGroup nodes collapsed).isEmpty) edges k = e0 :: rest →
      (displayEdgesParts nodes edges collapsed).2.filter (fun p => p.1 == k) =
        [(k, syntheticFor (childToGroup nodes collapsed) k e0 rest)]) ∧
    displayEdges collapseScenarioNodes collapseScenarioEdges ["G"] =
      [{ id := "synthetic-X-G", type := "typed", source := "X", target := "G"
         sourceHandle := none, targetHandle := none
         data := some { edgeType := .blocks, synthetic := some true
                        count := some 2 } }] := by
  refine ⟨fun nodes collapsed es1 es2 e hsome heq => ?_,
    fun nodes collapsed edges k e0 rest hcc => ?_, by decide⟩
  · have hhs : (!(childToGroup nodes collapsed).isEmpty) = true := by
      cases hctg : childToGroup nodes collapsed with
      | nil =>
        rw [hctg] at hsome
        rcases hsome with h | h <;> simp [mapGet] at h
      | cons p t => simp
    dsimp only [displayEdgesParts]
    rw [List.foldl_append, List.foldl_cons, List.foldl_append,
      displayEdgesStep_internal _ _ _ e hhs hsome heq]
  · apply filter_eq_of_mapGet
    · exact displayEdgesParts_keys_nodup nodes edges collapsed
    · rw [displayEdgesParts_snd_get, hcc]

/-- Witness for C2 (amended) at the §8 scenario. -/
theorem displayEdges_synthetic_aggregation_witness :
    contributorsTo (childToGroup collapseScenarioNodes ["G"])
        (!(childToGroup collapseScenarioNodes ["G"]).isEmpty)
        collapseScenarioEdges "X-G" =
      collapseScenarioEdges.get ⟨0, by decide⟩ :: [collapseScenarioEdges.get ⟨1, by decide⟩] ∧
    (displayEdgesParts collapseScenarioNodes collapseScenarioEdges ["G"]).2.filter
        (fun p => p.1 == "X-G") =
      [("X-G", syntheticFor (childToGroup collapseScenarioNodes ["G"]) "X-G"
          (collapseScenarioEdges.get ⟨0, by decide⟩)
          [collapseScenarioEdges.get ⟨1, by decide⟩])] :=
  ⟨by decide,
    displayEdges_synthetic_aggregation.2.1 collapseScenarioNodes ["G"]
      collapseScenarioEdges "X-G" (collapseScenarioEdges.get ⟨0, by decide⟩)
      [collapseScenarioEdges.get ⟨1, by decide⟩] (by decide)⟩

end PMGraph
